import Mathlib

/-!
# Verification of the search-and-ranking core of `opensource-issues-finder`

Shallow embedding of `backend/app/services/search_engine.py` and the
pagination logic of `backend/app/routes/search.py`, together with the
data contracts of `backend/app/models/query.py`.

Modelling conventions:
* Python `float` values are modelled as `ℚ` (exact rational arithmetic;
  IEEE-754 rounding error is abstracted away, and Python's banker's
  rounding of `round(x, 4)` at exact decimal half-ties is modelled as
  round-half-up — no claim below depends on tie behaviour).
* Python `datetime` values are modelled as whole-second Unix epoch
  integers (`ℤ`); `datetime.now(timezone.utc)` becomes an explicit
  `now : ℤ` parameter threaded through each function that calls it.
* `datetime.fromisoformat(s.replace('Z', '+00:00'))` followed by the
  aware-datetime subtraction is an external library call; it is
  abstracted as a parameter `parseTS : String → Option ℤ`, where
  `none` models any exception raised inside the `try` block
  (parse failure, or a naive/aware subtraction error).
* Python dicts used as Pinecone filter expressions are modelled by the
  explicit syntax trees `FieldCond` / `Condition` / `PFilter` below;
  a dict key/operator/value triple becomes a `FieldCond`.
* Truthiness tests `if x:` on optional values are modelled by the
  `truthy*` helpers (None, empty string, empty list and zero are falsy).
* Raising is modelled by totality: every embedded function is a total
  Lean function, and fallible steps return `Option`.
-/

namespace IssuesFinder

/-- Python truthiness of an optional string (`None` and `""` are falsy). -/
def truthyStr : Option String → Bool
  | none => false
  | some s => s ≠ ""

/-- Python truthiness of an optional string list (`None` and `[]` are falsy). -/
def truthyList : Option (List String) → Bool
  | none => false
  | some l => l ≠ []

/-- Python truthiness of an optional int (`None` and `0` are falsy). -/
def truthyInt : Option Int → Bool
  | none => false
  | some n => n ≠ 0

/-- Python truthiness of an optional float (`None` and `0.0` are falsy). -/
def truthyRat : Option ℚ → Bool
  | none => false
  | some q => q ≠ 0

/-- Python `int()` applied to a float: truncation toward zero. -/
def pyInt (q : ℚ) : ℤ := if 0 ≤ q then ⌊q⌋ else ⌈q⌉

/-- Python `round(x, 4)`: round to 4 decimal places. -/
def round4 (q : ℚ) : ℚ := (round (q * 10000) : ℚ) / 10000

/-! ## Data model (`backend/app/models/query.py`) -/

/-- `SearchQuery` (pydantic model): the user request, with optional manual
override filters. `page`/`limit` are unvalidated ints. -/
structure SearchQuery where
  query : String
  limit : Int := 20
  page : Int := 1
  language : Option String := none
  labels : Option (List String) := none
  sort_by : Option String := none
  days_ago : Option ℚ := none
  unassigned_only : Bool := false
deriving DecidableEq

/-- `ParsedQuery` (pydantic model): the canonical post-normalization filter.
`sort_by` is declared `Literal["newest", "recently_discussed", "relevance",
"stars"]` in the source; it is embedded as a plain `String` and theorems
quantify over or hypothesise the admissible values. -/
structure ParsedQuery where
  semantic_query : String
  language : Option String := none
  min_stars : Option Int := none
  max_stars : Option Int := none
  labels : Option (List String) := none
  difficulty : Option String := none
  sort_by : String := "relevance"
  days_ago : Option ℚ := none
  unassigned_only : Bool := false
  topics : Option (List String) := none
deriving DecidableEq

/-- The admissible values of the `sort_by` Literal type in
`backend/app/models/query.py`. -/
def validSortModes : List String := ["newest", "recently_discussed", "relevance", "stars"]

/-- Metadata of one Pinecone match, with the fields read by
`SearchEngine._create_result` and the two result-processing loops.
Fields accessed with `metadata.get(...)` (which tolerates absence) are
`Option`s; fields accessed with `metadata[...]` are required. -/
structure Metadata where
  issue_id : Int
  issue_number : Int
  title : String
  body : Option String := none
  repo_name : String
  repo_full_name : String
  repo_stars : Int
  repo_forks : Int
  language : Option String := none
  labels : Option (List String) := none
  created_at : String
  updated_at : String
  comments_count : Int
  issue_url : String
  repo_url : String
  is_assigned : Option Bool := none
  assignees_count : Option Int := none
  repo_description : Option String := none
  repo_topics : Option (List String) := none
  repo_license : Option String := none
deriving DecidableEq

/-- One raw Pinecone match as returned by `PineconeClient.search`
(`{"id": ..., "score": ..., "metadata": ...}`). -/
structure Match where
  id : String
  score : ℚ
  metadata : Metadata
deriving DecidableEq

/-- `SearchResult` (pydantic model). -/
structure SearchResult where
  issue_id : Int
  issue_number : Int
  title : String
  body : Option String
  repo_name : String
  repo_full_name : String
  repo_stars : Int
  repo_forks : Int
  language : Option String
  labels : List String
  created_at : String
  updated_at : String
  comments_count : Int
  issue_url : String
  repo_url : String
  score : ℚ
  is_assigned : Bool := false
  assignees_count : Int := 0
  repo_description : Option String := none
  repo_topics : List String := []
  repo_license : Option String := none
  state : String := "open"
deriving DecidableEq

/-! ## Pinecone filter expressions

The metadata filter language used by `_build_filter` and
`get_recent_issues`: comparison clauses on a metadata field, an `$or`
list of such clauses, and a top-level `$and`. -/

/-- A comparison operator of the Pinecone filter grammar. -/
inductive FOp where
  | eq
  | ne
  | gte
  | lte
  | inList
deriving DecidableEq

/-- A value appearing on the right-hand side of a filter clause. -/
inductive FVal where
  | str (s : String)
  | int (n : ℤ)
  | bool (b : Bool)
  | strList (l : List String)
deriving DecidableEq

/-- A single-field clause `{field: {op: value}}`. -/
structure FieldCond where
  field : String
  op : FOp
  value : FVal
deriving DecidableEq

/-- An element of the `conditions` list built by `_build_filter`: either a
single-field clause or an `{"$or": [...]}` dict of such clauses. -/
inductive Condition where
  | field (c : FieldCond)
  | disj (cs : List FieldCond)
deriving DecidableEq

/-- The filter value returned by `_build_filter`: a single condition dict
(returned unwrapped) or an `{"$and": [...]}` dict. -/
inductive PFilter where
  | single (c : Condition)
  | and (cs : List Condition)
deriving DecidableEq

/-- The always-present clause excluding administrative records:
`{"type": {"$ne": "stats"}}`. -/
def statsExclusion : FieldCond := ⟨"type", .ne, .str "stats"⟩

/-! ## Scorer (`SearchEngine._calculate_combined_score`) -/

/-- `MAX_STARS = 500000` (module-level constant). -/
def MAX_STARS : ℤ := 500000

/-- `MAX_AGE_DAYS = 365` (module-level constant). -/
def MAX_AGE_DAYS : ℤ := 365

/-- The recency component of `_calculate_combined_score`: the body of its
`try`/`except`. `parseTS` abstracts `datetime.fromisoformat` on the
`Z`-normalised string (`none` = the `except` path). `(now - updated).days`
is `timedelta.days`, i.e. floor division of the second difference by 86400;
since the divisor is positive, `Int` (Euclidean) division agrees with
Python floor division. -/
def recencyScore (parseTS : String → Option ℤ) (updated_at : String) (now : ℤ) : ℚ :=
  match parseTS updated_at with
  | some updated =>
      let age_days : ℤ := (now - updated) / 86400
      max 0 (1 - (age_days : ℚ) / (MAX_AGE_DAYS : ℚ))
  | none => 0.5

/-- `SearchEngine._calculate_combined_score`. -/
def calculate_combined_score (parseTS : String → Option ℤ)
    (semantic_score : ℚ) (stars : ℤ) (updated_at : String) (now : ℤ) : ℚ :=
  let stars_score := min ((stars : ℚ) / (MAX_STARS : ℚ)) 1.0
  let recency_score := recencyScore parseTS updated_at now
  let combined :=
    0.70 * semantic_score +
    0.30 * recency_score +
    0.00 * stars_score
  round4 combined

/-! ## Query Normalizer (the manual-override block of `SearchEngine.search`) -/

/-- The "Override with manual filters if provided" block of
`SearchEngine.search`: each `if query.x:` guard is Python truthiness. -/
def applyOverrides (query : SearchQuery) (parsed : ParsedQuery) : ParsedQuery :=
  let parsed :=
    if truthyStr query.language then
      { parsed with
        language :=
          if (query.language.getD "").toLower ≠ "all" then query.language else none }
    else parsed
  let parsed :=
    if truthyList query.labels then { parsed with labels := query.labels } else parsed
  let parsed :=
    if truthyStr query.sort_by then
      { parsed with sort_by := query.sort_by.getD "" }
    else parsed
  let parsed :=
    if truthyRat query.days_ago then { parsed with days_ago := query.days_ago } else parsed
  let parsed :=
    if query.unassigned_only then
      { parsed with unassigned_only := query.unassigned_only }
    else parsed
  parsed

/-! ## Filter Compiler (`SearchEngine._build_filter`) -/

/-- The body of the `for label in parsed.labels:` loop of `_build_filter`:
the clauses one label string contributes. -/
def compileLabel (label : String) : List Condition :=
  let label_lower := label.toLower
  if label_lower = "good first issue" then
    [.field ⟨"is_good_first_issue", .eq, .bool true⟩]
  else if label_lower = "help wanted" then
    [.field ⟨"is_help_wanted", .eq, .bool true⟩]
  else []

/-- The `conditions` list assembled by `_build_filter`, in source order.
`now` is the epoch value of the `datetime.now(timezone.utc)` call inside
the `days_ago` branch. -/
def filterConditions (now : ℤ) (parsed : ParsedQuery) : List Condition :=
  [.field statsExclusion]
  ++ (if truthyStr parsed.language then
        [.field ⟨"language", .eq, .str (parsed.language.getD "")⟩]
      else [])
  ++ (if truthyInt parsed.min_stars then
        [.field ⟨"repo_stars", .gte, .int (parsed.min_stars.getD 0)⟩]
      else [])
  ++ (if truthyInt parsed.max_stars then
        [.field ⟨"repo_stars", .lte, .int (parsed.max_stars.getD 0)⟩]
      else [])
  ++ (if truthyList parsed.labels then (parsed.labels.getD []).flatMap compileLabel
      else [])
  ++ (if parsed.unassigned_only then
        [.field ⟨"is_assigned", .eq, .bool false⟩]
      else [])
  ++ (if truthyRat parsed.days_ago then
        [.field ⟨"updated_at_ts", .gte,
          .int (pyInt ((now : ℚ) - (parsed.days_ago.getD 0) * 86400))⟩]
      else [])
  ++ (if parsed.difficulty = some "beginner" then
        [.disj [⟨"is_good_first_issue", .eq, .bool true⟩,
                ⟨"is_help_wanted", .eq, .bool true⟩]]
      else [])

/-- `SearchEngine._build_filter`: `None` on an empty conditions list, a
single condition unwrapped, otherwise `{"$and": conditions}`. -/
def build_filter (now : ℤ) (parsed : ParsedQuery) : Option PFilter :=
  match filterConditions now parsed with
  | [] => none
  | [c] => some (.single c)
  | cs => some (.and cs)

/-- The filter argument `SearchEngine.search` passes to Pinecone:
`pinecone_filter if pinecone_filter else None`. A filter dict produced by
`_build_filter` is a non-empty dict, hence truthy, so only `None` maps to
`None`. -/
def searchSentFilter (now : ℤ) (parsed : ParsedQuery) : Option PFilter :=
  match build_filter now parsed with
  | some f => some f
  | none => none

/-! ## Result construction and the ranked search path -/

/-- `SearchEngine._create_result`: project a match's metadata into a
`SearchResult` (the `metadata.get(k, d)` calls become `Option.getD`). -/
def create_result (m : Match) : SearchResult :=
  { issue_id := m.metadata.issue_id
    issue_number := m.metadata.issue_number
    title := m.metadata.title
    body := m.metadata.body
    repo_name := m.metadata.repo_name
    repo_full_name := m.metadata.repo_full_name
    repo_stars := m.metadata.repo_stars
    repo_forks := m.metadata.repo_forks
    language := m.metadata.language
    labels := m.metadata.labels.getD []
    created_at := m.metadata.created_at
    updated_at := m.metadata.updated_at
    comments_count := m.metadata.comments_count
    issue_url := m.metadata.issue_url
    repo_url := m.metadata.repo_url
    score := m.score
    is_assigned := m.metadata.is_assigned.getD false
    assignees_count := m.metadata.assignees_count.getD 0
    repo_description := m.metadata.repo_description
    repo_topics := m.metadata.repo_topics.getD []
    repo_license := m.metadata.repo_license }

/-- The per-match body of the loop in `_process_results`: `none` models
`continue` (topic post-filter miss), otherwise the created result with its
score overwritten by the combined score. -/
def processMatch (parseTS : String → Option ℤ) (now : ℤ) (parsed : ParsedQuery)
    (m : Match) : Option SearchResult :=
  let metadata := m.metadata
  let keep : Bool :=
    if truthyList parsed.topics then
      (parsed.topics.getD []).any (fun topic =>
        ((metadata.repo_topics.getD []).map (fun t => t.toLower)).contains topic.toLower)
    else true
  if keep then
    some { create_result m with
      score := calculate_combined_score parseTS m.score metadata.repo_stars
                 metadata.updated_at now }
  else none

/-- `SearchEngine._process_results`: topic post-filter, combined scoring,
then the sort dispatch on `parsed.sort_by` (`"stars"` → repo_stars,
`"recency"` → updated_at string, else combined score; each via Python's
stable `list.sort(reverse=True)`, modelled by a stable merge sort with the
reversed key order). -/
def process_results (parseTS : String → Option ℤ) (now : ℤ)
    (raw_results : List Match) (parsed : ParsedQuery) : List SearchResult :=
  let results := raw_results.filterMap (processMatch parseTS now parsed)
  if parsed.sort_by = "stars" then
    results.mergeSort (fun a b => decide (b.repo_stars ≤ a.repo_stars))
  else if parsed.sort_by = "recency" then
    results.mergeSort (fun a b => decide (b.updated_at ≤ a.updated_at))
  else
    results.mergeSort (fun a b => decide (b.score ≤ a.score))

/-! ## Homepage feed (`SearchEngine.get_recent_issues`) -/

/-- The `filter_dict` built by `get_recent_issues`, as an association list
of single-field clauses (its keys are distinct, so a list is a faithful
dict model). `now` stands for the `datetime.now(timezone.utc)` calls. -/
def recentFilterDict (days_ago : Option ℤ) (sort_by : String)
    (languages : Option (List String)) (now : ℤ) : List FieldCond :=
  [statsExclusion]
  ++ (if truthyInt days_ago then
        [⟨"updated_at_ts", .gte, .int (now - (days_ago.getD 0) * 86400)⟩]
      else if sort_by = "newest" then
        [⟨"created_at_ts", .gte, .int (now - 24 * 3600)⟩]
      else
        [⟨"updated_at_ts", .gte, .int (now - 30 * 86400)⟩])
  ++ (match languages with
      | none => []
      | some [] => []
      | some [l] => [⟨"language", .eq, .str l⟩]
      | some ls => [⟨"language", .inList, .strList ls⟩])

/-- The per-match body of the result loop in `get_recent_issues`: `none`
models `continue` (label post-filter miss), otherwise the created result
with the combined score attached for display. -/
def recentMatch (parseTS : String → Option ℤ) (now : ℤ)
    (labels : Option (List String)) (m : Match) : Option SearchResult :=
  let metadata := m.metadata
  let keep : Bool :=
    if truthyList labels then
      (labels.getD []).any (fun lbl =>
        ((metadata.labels.getD []).map (fun l => l.toLower)).contains lbl.toLower)
    else true
  if keep then
    some { create_result m with
      score := calculate_combined_score parseTS m.score metadata.repo_stars
                 metadata.updated_at now }
  else none

/-- The result-processing tail of `get_recent_issues`: label post-filter,
scoring, the four-way sort dispatch on `sort_by`, and `results[:limit]`. -/
def get_recent_issues_results (parseTS : String → Option ℤ) (now : ℤ)
    (raw_results : List Match) (sort_by : String)
    (labels : Option (List String)) (limit : ℤ) : List SearchResult :=
  let results := raw_results.filterMap (recentMatch parseTS now labels)
  let sorted :=
    if sort_by = "newest" then
      results.mergeSort (fun a b => decide (b.created_at ≤ a.created_at))
    else if sort_by = "recently_discussed" then
      results.mergeSort (fun a b => decide (b.updated_at ≤ a.updated_at))
    else if sort_by = "stars" then
      results.mergeSort (fun a b => decide (b.repo_stars ≤ a.repo_stars))
    else
      results.mergeSort (fun a b => decide (b.score ≤ a.score))
  sorted.take limit.toNat

/-! ## Paginator (the pagination block of the `search` route) -/

/-- The pagination metadata and slice computed by the `search` route in
`backend/app/routes/search.py`. `//` on positive divisors agrees with `ℤ`
division; the slice `all_results[start_idx:end_idx]` is `drop`/`take`
(its indices are non-negative whenever `limit ≥ 1`, the regime of every
claim below). -/
structure Page (α : Type) where
  results : List α
  total : ℤ
  page : ℤ
  limit : ℤ
  total_pages : ℤ
  has_next : Bool
  has_prev : Bool
deriving DecidableEq

/-- The pagination block of the `search` route. -/
def paginate {α : Type} (all_results : List α) (pageReq limit : ℤ) : Page α :=
  let total : ℤ := all_results.length
  let total_pages : ℤ := if total > 0 then (total + limit - 1) / limit else 1
  let page : ℤ := max 1 (min pageReq total_pages)
  let start_idx := (page - 1) * limit
  let end_idx := start_idx + limit
  let page_results := (all_results.drop start_idx.toNat).take (end_idx - start_idx).toNat
  { results := page_results
    total := total
    page := page
    limit := limit
    total_pages := total_pages
    has_next := decide (page < total_pages)
    has_prev := decide (page > 1) }

/-- The slice `ordered[(page-1)*limit : page*limit]` for a 1-indexed page,
as named by the spec's partition property. -/
def pageSlice {α : Type} (ordered : List α) (page limit : ℕ) : List α :=
  (ordered.drop ((page - 1) * limit)).take limit

/-- `total_pages` as a natural number: `ceil(total/limit)` if positive
else 1, in the `(total + limit - 1) // limit` form the route uses. -/
def totalPagesNat (total limit : ℕ) : ℕ :=
  if total > 0 then (total + limit - 1) / limit else 1

/-! ## Spec-side definitions, parse instances and concrete inputs

Definitions used by the claim statements: claim-side formulations to be
compared with the embedded code, concrete parse functions, and the
concrete candidates of the counterexamples. -/

/-- A constant-result parse function (used to instantiate `parseTS` at
concrete inputs). -/
def parseAt (t : ℤ) : String → Option ℤ := fun _ => some t

/-- The always-failing parse function (used to instantiate `parseTS`). -/
def parseNone : String → Option ℤ := fun _ => none

/-- Spec-side definition, following the spec's words: `stars_score =
min(stars / MAX_STARS, 1.0)` with `MAX_STARS = 500,000`. -/
def spec_stars_score (stars : ℤ) : ℚ := min ((stars : ℚ) / 500000) 1.0

/-- Spec-side definition: `age_days`, the whole-day difference between
`now` and the parsed `updated_at`. -/
def spec_age_days (updated now : ℤ) : ℤ := (now - updated) / 86400

/-- Spec-side definition: `recency_score = max(0, 1 - age_days/MAX_AGE_DAYS)`
with `MAX_AGE_DAYS = 365`. -/
def spec_recency_score (updated now : ℤ) : ℚ :=
  max 0 (1 - (spec_age_days updated now : ℚ) / 365)

/-- The good-first-issue clause compiled from the label vocabulary. -/
def gfiClause : Condition := .field ⟨"is_good_first_issue", .eq, .bool true⟩

/-- The help-wanted clause compiled from the label vocabulary. -/
def hwClause : Condition := .field ⟨"is_help_wanted", .eq, .bool true⟩

/-- Claim-side time clause for the homepage feed, following the claim's
words: with a truthy `days_ago`, `updated_at_ts >= now - days_ago*86400`;
otherwise `created_at_ts >= now - 24 hours` for mode `"newest"` and
`updated_at_ts >= now - 30 days` for every other mode. -/
def specTimeClause (days_ago : Option ℤ) (sort_by : String) (now : ℤ) : FieldCond :=
  if truthyInt days_ago then
    ⟨"updated_at_ts", .gte, .int (now - (days_ago.getD 0) * 86400)⟩
  else if sort_by = "newest" then
    ⟨"created_at_ts", .gte, .int (now - 24 * 60 * 60)⟩
  else
    ⟨"updated_at_ts", .gte, .int (now - 30 * 24 * 60 * 60)⟩

/-- The language clauses of the homepage-feed filter dict, by number of
requested languages (proof-side abbreviation of the corresponding match
in `recentFilterDict`). -/
def recentLangClauses : Option (List String) → List FieldCond
  | none => []
  | some [] => []
  | some [l] => [⟨"language", .eq, .str l⟩]
  | some ls => [⟨"language", .inList, .strList ls⟩]

/-- The compiled predicate "contains the stats exclusion": it is either
exactly that clause, or an `$and` whose conditions include it. -/
def filterHasStats : PFilter → Prop
  | .single c => c = .field statsExclusion
  | .and cs => Condition.field statsExclusion ∈ cs

/-- A parse function returning a fixed instant two days after epoch zero
(for evaluating the scorer on a candidate whose `updated_at` parses to a
time later than `now`). -/
def parseFuture : String → Option ℤ := fun _ => some 172800

/-- Claim-side sort-key relation for the homepage feed, following the
claim's mode table: `"newest"` by `created_at`, `"recently_discussed"` by
`updated_at`, `"stars"` by `repo_stars`, any other mode (the default
relevance) by the combined score — all descending. -/
def feedSortKeyGE (sort_by : String) (a b : SearchResult) : Prop :=
  if sort_by = "newest" then b.created_at ≤ a.created_at
  else if sort_by = "recently_discussed" then b.updated_at ≤ a.updated_at
  else if sort_by = "stars" then b.repo_stars ≤ a.repo_stars
  else b.score ≤ a.score

/-- Claim-side sort-key relation for the ranked search path, as the code
dispatches it: `"stars"` by `repo_stars`, the literal `"recency"` (never a
valid `sort_by` value) by `updated_at`, every other mode — including
`"newest"` and `"recently_discussed"` — by the combined score, all
descending. -/
def rankedSortKeyGE (sort_by : String) (a b : SearchResult) : Prop :=
  if sort_by = "stars" then b.repo_stars ≤ a.repo_stars
  else if sort_by = "recency" then b.updated_at ≤ a.updated_at
  else b.score ≤ a.score

/-- Metadata of a minimal counterexample candidate. -/
def mkMeta (created updated : String) (stars : ℤ) : Metadata :=
  { issue_id := 1
    issue_number := 1
    title := "t"
    repo_name := "r"
    repo_full_name := "o/r"
    repo_stars := stars
    repo_forks := 0
    created_at := created
    updated_at := updated
    comments_count := 0
    issue_url := "u"
    repo_url := "v" }

/-- Counterexample candidate created later but with low similarity. -/
def cxMatch1 : Match :=
  ⟨"a", 0.1, mkMeta "2024-02-01T00:00:00Z" "2024-02-01T00:00:00Z" 0⟩

/-- Counterexample candidate created earlier but with high similarity. -/
def cxMatch2 : Match :=
  ⟨"b", 0.9, mkMeta "2024-01-01T00:00:00Z" "2024-01-01T00:00:00Z" 0⟩

/-- A ranked-search query whose caller requested the `"newest"` sort. -/
def cxParsed : ParsedQuery := { semantic_query := "q", sort_by := "newest" }

/-- The scored results the ranked path produces for the two candidates. -/
def cxRes1 : SearchResult :=
  { create_result cxMatch1 with
    score := calculate_combined_score parseNone cxMatch1.score
               cxMatch1.metadata.repo_stars cxMatch1.metadata.updated_at 0 }

/-- The scored results the ranked path produces for the two candidates. -/
def cxRes2 : SearchResult :=
  { create_result cxMatch2 with
    score := calculate_combined_score parseNone cxMatch2.score
               cxMatch2.metadata.repo_stars cxMatch2.metadata.updated_at 0 }

/-! ## Theorems -/

/-- Stable descending sort by a key, as obtained from Python
`list.sort(key=..., reverse=True)`: the output is pairwise ordered by the
key, descending. -/
lemma pairwise_desc_mergeSort {α β : Type} [LinearOrder β] (k : α → β) (l : List α) :
    List.Pairwise (fun a b => k b ≤ k a) (l.mergeSort (fun a b => decide (k b ≤ k a))) := by
  have h := @List.sorted_mergeSort _ (fun a b => decide (k b ≤ k a))
    (fun a b c hab hbc => by
      simp only [decide_eq_true_eq] at *
      exact le_trans hbc hab)
    (fun a b => by
      simp only [Bool.or_eq_true, decide_eq_true_eq]
      exact le_total (k b) (k a))
    l
  exact h.imp (fun hab => by simpa using hab)

/-- If the topic post-filter is off, `_process_results` keeps every raw
match (the scorer never drops a candidate). -/
lemma process_results_length (parseTS : String → Option ℤ) (now : ℤ)
    (raw : List Match) (parsed : ParsedQuery)
    (h : truthyList parsed.topics = false) :
    (process_results parseTS now raw parsed).length = raw.length := by
  have hmap : raw.filterMap (processMatch parseTS now parsed) =
      raw.map (fun m =>
        { create_result m with
          score := calculate_combined_score parseTS m.score m.metadata.repo_stars
                     m.metadata.updated_at now }) := by
    induction raw with
    | nil => rfl
    | cons m tl ih => simp [List.filterMap_cons, processMatch, h, ih]
  unfold process_results
  split_ifs <;>
    simp [List.Perm.length_eq (List.mergeSort_perm _ _), hmap]

/-- C2: for every parseable `updated_at` (and any similarity score, star
count and current time), `_calculate_combined_score` returns exactly
`round(0.70*raw_similarity + 0.30*recency_score + 0.00*stars_score, 4)`
with `stars_score = min(stars/500000, 1.0)` and
`recency_score = max(0, 1 - age_days/365)`, `age_days` being the
whole-day difference between `now` and the parsed `updated_at`; the
zero-weight popularity term is present in the sum. -/
theorem C2_scorer_formula (parseTS : String → Option ℤ) (sem : ℚ) (stars : ℤ)
    (u : String) (now t : ℤ) (h : parseTS u = some t) :
    calculate_combined_score parseTS sem stars u now =
      round4 (0.70 * sem + 0.30 * spec_recency_score t now +
              0.00 * spec_stars_score stars) := by
  simp only [calculate_combined_score, recencyScore, h, spec_recency_score,
    spec_age_days, spec_stars_score, MAX_AGE_DAYS, MAX_STARS]
  norm_num

/-- C2 witness: the theorem applied at a concrete parseable input. -/
theorem C2_scorer_formula_witness :
    parseAt 1704067200 "2024-01-01T00:00:00Z" = some 1704067200 ∧
    calculate_combined_score (parseAt 1704067200) 0.8 1000
        "2024-01-01T00:00:00Z" 1704153600 =
      round4 (0.70 * 0.8 + 0.30 * spec_recency_score 1704067200 1704153600 +
              0.00 * spec_stars_score 1000) :=
  ⟨rfl, C2_scorer_formula (parseAt 1704067200) 0.8 1000
    "2024-01-01T00:00:00Z" 1704153600 1704067200 rfl⟩

/-- C3: boundary and fallback behaviour of the recency component:
`age_days ≥ 365` gives recency 0; a candidate updated exactly at `now`
gives recency 1.0; an `updated_at` that fails to parse gives recency 0.5
(the scorer is a total function of its inputs, so it returns normally);
and with the topic post-filter off, every candidate is still included and
scored regardless of parse failures. -/
theorem C3_recency_boundaries (parseTS : String → Option ℤ) (u : String)
    (now t : ℤ) (raw : List Match) (parsed : ParsedQuery) :
    (parseTS u = some t → 365 ≤ (now - t) / 86400 →
      recencyScore parseTS u now = 0)
    ∧ (parseTS u = some now → recencyScore parseTS u now = 1.0)
    ∧ (parseTS u = none → recencyScore parseTS u now = 0.5)
    ∧ (truthyList parsed.topics = false →
        (process_results parseTS now raw parsed).length = raw.length) := by
  refine ⟨?_, ?_, ?_, ?_⟩
  · intro h hage
    simp only [recencyScore, h, MAX_AGE_DAYS]
    rw [max_eq_left]
    rw [sub_nonpos, le_div_iff₀ (by norm_num : (0:ℚ) < ((365:ℤ):ℚ))]
    rw [one_mul]
    exact_mod_cast hage
  · intro h
    simp only [recencyScore, h, MAX_AGE_DAYS]
    norm_num
  · intro h
    simp [recencyScore, h]
  · exact process_results_length parseTS now raw parsed

/-- C3 witness: the theorem applied at concrete inputs covering each
hypothesis: an issue aged exactly 365 days, an issue updated at `now`,
an unparseable timestamp, and an empty raw batch with no topic filter. -/
theorem C3_recency_boundaries_witness :
    recencyScore (parseAt 0) "x" 31536000 = 0
    ∧ recencyScore (parseAt 5) "x" 5 = 1.0
    ∧ recencyScore parseNone "x" 0 = 0.5
    ∧ (process_results parseNone 0 [] {semantic_query := ""}).length = 0 :=
  ⟨(C3_recency_boundaries (parseAt 0) "x" 31536000 0 [] {semantic_query := ""}).1
      rfl (by decide),
   (C3_recency_boundaries (parseAt 5) "x" 5 5 [] {semantic_query := ""}).2.1 rfl,
   (C3_recency_boundaries parseNone "x" 0 0 [] {semantic_query := ""}).2.2.1 rfl,
   (C3_recency_boundaries parseNone "x" 0 0 [] {semantic_query := ""}).2.2.2 rfl⟩

/-- C5: the compiled predicate always contains the `type != "stats"`
clause; a label case-insensitively equal to `"good first issue"` compiles
to `is_good_first_issue == true`, one equal to `"help wanted"` compiles to
`is_help_wanted == true`, any other label contributes no clause; and every
clause compiled from the query's labels appears among the predicate's
conditions. -/
theorem C5_label_compilation (now : ℤ) (parsed : ParsedQuery) (label : String) :
    Condition.field statsExclusion ∈ filterConditions now parsed
    ∧ (gfiClause ∈ compileLabel label ↔ label.toLower = "good first issue")
    ∧ (hwClause ∈ compileLabel label ↔ label.toLower = "help wanted")
    ∧ (label.toLower ≠ "good first issue" → label.toLower ≠ "help wanted" →
        compileLabel label = [])
    ∧ (if truthyList parsed.labels then
         (parsed.labels.getD []).flatMap compileLabel
       else []) ⊆ filterConditions now parsed := by
  refine ⟨?_, ?_, ?_, ?_, ?_⟩
  · simp [filterConditions]
  · by_cases h1 : label.toLower = "good first issue"
    · simp [compileLabel, h1, gfiClause]
    · by_cases h2 : label.toLower = "help wanted" <;>
        simp [compileLabel, h1, h2, gfiClause, hwClause]
  · by_cases h1 : label.toLower = "good first issue"
    · simp [compileLabel, h1, gfiClause, hwClause]
    · by_cases h2 : label.toLower = "help wanted" <;>
        simp [compileLabel, h1, h2, hwClause]
  · intro h1 h2
    simp [compileLabel, h1, h2]
  · intro c hc
    simp only [filterConditions, List.mem_append]
    tauto

/-- C5 witness: the theorem applied at concrete inputs, using the
membership characterisations at a recognised (mixed-case) label and the
no-clause consequence at an unrecognised label. -/
theorem C5_label_compilation_witness :
    Condition.field statsExclusion ∈ filterConditions 0 {semantic_query := ""}
    ∧ gfiClause ∈ compileLabel "Good First Issue"
    ∧ hwClause ∈ compileLabel "HELP WANTED"
    ∧ compileLabel "triage" = [] :=
  ⟨(C5_label_compilation 0 {semantic_query := ""} "x").1,
   (C5_label_compilation 0 {semantic_query := ""} "Good First Issue").2.1.mpr
     (by simp only [String.toLower, String.map_eq]; decide),
   (C5_label_compilation 0 {semantic_query := ""} "HELP WANTED").2.2.1.mpr
     (by simp only [String.toLower, String.map_eq]; decide),
   (C5_label_compilation 0 {semantic_query := ""} "triage").2.2.2.1
     (by simp only [String.toLower, String.map_eq]; decide)
     (by simp only [String.toLower, String.map_eq]; decide)⟩

lemma recentFilterDict_decomp (days_ago : Option ℤ) (sort_by : String)
    (languages : Option (List String)) (now : ℤ) :
    recentFilterDict days_ago sort_by languages now =
      statsExclusion :: specTimeClause days_ago sort_by now ::
        recentLangClauses languages := by
  unfold recentFilterDict recentLangClauses specTimeClause
  by_cases hd : truthyInt days_ago <;>
    by_cases hs : sort_by = "newest" <;>
      simp [hd, hs]

lemma recentLangClauses_field (languages : Option (List String)) :
    ∀ c ∈ recentLangClauses languages, c.field = "language" := by
  rcases languages with _ | ⟨_ | ⟨a, _ | ⟨b, tl⟩⟩⟩ <;>
    intro c hc <;>
      simp [recentLangClauses] at hc <;>
        subst hc <;> rfl

/-- C6: the homepage-feed filter contains the claimed time clause, and it
is the only clause over the timestamp fields (so the time window is
exactly the claimed one in each of the three cases). -/
theorem C6_feed_time_window (days_ago : Option ℤ) (sort_by : String)
    (languages : Option (List String)) (now : ℤ) :
    specTimeClause days_ago sort_by now ∈
      recentFilterDict days_ago sort_by languages now
    ∧ ∀ c ∈ recentFilterDict days_ago sort_by languages now,
        (c.field = "updated_at_ts" ∨ c.field = "created_at_ts") →
          c = specTimeClause days_ago sort_by now := by
  constructor
  · rw [recentFilterDict_decomp]
    simp
  · intro c hc hfield
    rw [recentFilterDict_decomp] at hc
    rcases List.mem_cons.1 hc with rfl | hc
    · simp [statsExclusion] at hfield
    · rcases List.mem_cons.1 hc with rfl | hc
      · rfl
      · rw [recentLangClauses_field languages c hc] at hfield
        simp at hfield

/-- C6 witness: the theorem applied at concrete inputs for each of the
three cases (explicit `days_ago`, `"newest"` default, other-mode default),
with the uniqueness conjunct discharged at a concrete clause. -/
theorem C6_feed_time_window_witness :
    (specTimeClause (some 7) "newest" 1000 ∈
      recentFilterDict (some 7) "newest" none 1000)
    ∧ (specTimeClause none "newest" 1000 ∈
      recentFilterDict none "newest" none 1000)
    ∧ (specTimeClause none "recently_discussed" 1000 ∈
      recentFilterDict none "recently_discussed" none 1000)
    ∧ (⟨"created_at_ts", .gte, .int (1000 - 24 * 3600)⟩ : FieldCond) =
        specTimeClause none "newest" 1000 :=
  ⟨(C6_feed_time_window (some 7) "newest" none 1000).1,
   (C6_feed_time_window none "newest" none 1000).1,
   (C6_feed_time_window none "recently_discussed" none 1000).1,
   (C6_feed_time_window none "newest" none 1000).2
     ⟨"created_at_ts", .gte, .int (1000 - 24 * 3600)⟩
     (by simp [recentFilterDict, truthyInt]) (by simp)⟩

lemma applyOverrides_fields (query : SearchQuery) (parsed : ParsedQuery) :
    applyOverrides query parsed =
      { parsed with
        language :=
          if truthyStr query.language then
            (if (query.language.getD "").toLower ≠ "all" then query.language
             else none)
          else parsed.language
        labels := if truthyList query.labels then query.labels else parsed.labels
        sort_by :=
          if truthyStr query.sort_by then query.sort_by.getD ""
          else parsed.sort_by
        days_ago :=
          if truthyRat query.days_ago then query.days_ago else parsed.days_ago
        unassigned_only :=
          if query.unassigned_only then query.unassigned_only
          else parsed.unassigned_only } := by
  unfold applyOverrides
  split_ifs <;> rfl

/-- C9: override precedence in the Query Normalizer: a non-empty override
language replaces the inferred one unless it case-insensitively equals
`"all"`, which unsets the language filter (an absent or empty override
leaves the inferred value); and the `unassigned_only` override is
one-directional — the result is the disjunction of the inferred flag and
the override, so a false override never clears an inferred true. -/
theorem C9_override_precedence (query : SearchQuery) (parsed : ParsedQuery) :
    ((applyOverrides query parsed).language =
      match query.language with
      | some s => if s = "" then parsed.language
                  else if s.toLower = "all" then none else some s
      | none => parsed.language)
    ∧ ((applyOverrides query parsed).unassigned_only =
        (parsed.unassigned_only || query.unassigned_only)) := by
  rw [applyOverrides_fields]
  constructor
  · cases hl : query.language with
    | none => simp [truthyStr]
    | some s =>
        by_cases hs : s = ""
        · simp [truthyStr, hs]
        · by_cases hall : s.toLower = "all" <;>
            simp [truthyStr, hs, hall]
  · cases hu : query.unassigned_only <;> simp

/-- C10: `_build_filter` never returns `None` — the stats exclusion makes
the conditions list non-empty — and the ranked search path forwards to the
index a predicate containing the stats exclusion (`pinecone_filter if
pinecone_filter else None` never degrades it to `None`). -/
theorem C10_filter_never_none (now : ℤ) (parsed : ParsedQuery) :
    ∃ f, build_filter now parsed = some f
      ∧ searchSentFilter now parsed = some f
      ∧ filterHasStats f := by
  obtain ⟨tl, htl⟩ : ∃ tl,
      filterConditions now parsed = Condition.field statsExclusion :: tl :=
    ⟨_, rfl⟩
  unfold searchSentFilter build_filter
  rw [htl]
  cases tl with
  | nil => exact ⟨_, rfl, rfl, rfl⟩
  | cons a l => exact ⟨_, rfl, rfl, by simp [filterHasStats]⟩

lemma ceil_div_eq (t l : ℤ) (hl : 1 ≤ l) :
    ⌈(t : ℚ) / (l : ℚ)⌉ = (t + l - 1) / l := by
  have hl0 : (0 : ℤ) < l := by omega
  have hql : (0 : ℚ) < (l : ℚ) := by exact_mod_cast hl0
  have hdm := Int.ediv_add_emod (t + l - 1) l
  have hr0 : 0 ≤ (t + l - 1) % l := Int.emod_nonneg _ (by omega)
  have hrl : (t + l - 1) % l < l := Int.emod_lt_of_pos _ hl0
  have h2 : t ≤ l * ((t + l - 1) / l) := by
    generalize l * ((t + l - 1) / l) = X at hdm
    omega
  have h1 : l * ((t + l - 1) / l) - l < t := by
    generalize l * ((t + l - 1) / l) = X at hdm h2
    omega
  have h1i : ((t + l - 1) / l - 1) * l < t := by linarith [h1]
  have h2i : t ≤ ((t + l - 1) / l) * l := by linarith [h2]
  rw [Int.ceil_eq_iff]
  constructor
  · rw [show ((((t + l - 1) / l : ℤ) : ℚ) - 1) = (((t + l - 1) / l - 1 : ℤ) : ℚ) by
      push_cast; ring]
    rw [lt_div_iff₀ hql]
    exact_mod_cast h1i
  · rw [div_le_iff₀ hql]
    exact_mod_cast h2i

lemma one_le_total_pages {α : Type} (l : List α) (limit : ℤ) (hlim : 1 ≤ limit) :
    1 ≤ (if (l.length : ℤ) > 0 then ((l.length : ℤ) + limit - 1) / limit else 1) := by
  split_ifs with h
  · rw [Int.le_ediv_iff_mul_le (by omega)]
    omega
  · omega

/-- C7: pagination metadata of the `search` route: `total` is the full
result count, `total_pages` is `ceil(total/limit)` for a non-empty list
and 1 for an empty one, the requested page is clamped into
`[1, total_pages]` (total function — no error path), `has_next`/`has_prev`
compare the clamped page against the bounds, and an empty result set
yields one empty page with both flags false. -/
theorem C7_pagination {α : Type} (l : List α) (pageReq limit : ℤ)
    (hlim : 1 ≤ limit) :
    (paginate l pageReq limit).total = l.length
    ∧ (0 < l.length →
        (paginate l pageReq limit).total_pages =
          ⌈(l.length : ℚ) / (limit : ℚ)⌉)
    ∧ (l.length = 0 → (paginate l pageReq limit).total_pages = 1)
    ∧ (paginate l pageReq limit).page =
        max 1 (min pageReq (paginate l pageReq limit).total_pages)
    ∧ 1 ≤ (paginate l pageReq limit).page
    ∧ (paginate l pageReq limit).page ≤ (paginate l pageReq limit).total_pages
    ∧ ((paginate l pageReq limit).has_next = true ↔
        (paginate l pageReq limit).page < (paginate l pageReq limit).total_pages)
    ∧ ((paginate l pageReq limit).has_prev = true ↔
        1 < (paginate l pageReq limit).page)
    ∧ (l.length = 0 →
        (paginate l pageReq limit).results = []
        ∧ (paginate l pageReq limit).has_next = false
        ∧ (paginate l pageReq limit).has_prev = false) := by
  have htp := one_le_total_pages l limit hlim
  refine ⟨rfl, ?_, ?_, rfl, ?_, ?_, ?_, ?_, ?_⟩
  · intro h
    show (if (l.length : ℤ) > 0 then ((l.length : ℤ) + limit - 1) / limit else 1) = _
    rw [if_pos (by exact_mod_cast h)]
    exact (ceil_div_eq (l.length : ℤ) limit hlim).symm
  · intro h
    show (if (l.length : ℤ) > 0 then ((l.length : ℤ) + limit - 1) / limit else 1) = 1
    rw [if_neg (by simp [h])]
  · exact le_max_left _ _
  · exact max_le htp (min_le_right _ _)
  · exact decide_eq_true_iff
  · exact decide_eq_true_iff
  · intro h
    have hl : l = [] := List.length_eq_zero.1 h
    subst hl
    have htp1 : (if ((List.length ([] : List α)) : ℤ) > 0 then
        (((List.length ([] : List α)) : ℤ) + limit - 1) / limit else 1) = 1 := by
      simp
    have hpage : max 1 (min pageReq
        (if ((List.length ([] : List α)) : ℤ) > 0 then
          (((List.length ([] : List α)) : ℤ) + limit - 1) / limit else 1)) = 1 := by
      rw [htp1]
      exact max_eq_left (min_le_right _ _)
    refine ⟨?_, ?_, ?_⟩
    · show List.take _ (List.drop _ ([] : List α)) = []
      simp
    · show decide (_ < _) = false
      rw [hpage, htp1]
      simp
    · show decide (_ > _) = false
      rw [hpage]
      simp

/-- C7 witness: the theorem applied at a concrete list, page and limit. -/
theorem C7_pagination_witness :
    (1 : ℤ) ≤ 2
    ∧ ((paginate [10, 20, 30] 5 2).total = 3
        ∧ (0 < ([10, 20, 30] : List ℕ).length →
            (paginate [10, 20, 30] 5 2).total_pages =
              ⌈((([10, 20, 30] : List ℕ).length) : ℚ) / ((2 : ℤ) : ℚ)⌉)
        ∧ (([10, 20, 30] : List ℕ).length = 0 →
            (paginate [10, 20, 30] 5 2).total_pages = 1)
        ∧ (paginate [10, 20, 30] 5 2).page =
            max 1 (min 5 (paginate [10, 20, 30] 5 2).total_pages)
        ∧ 1 ≤ (paginate ([10, 20, 30] : List ℕ) 5 2).page
        ∧ (paginate [10, 20, 30] 5 2).page ≤
            (paginate ([10, 20, 30] : List ℕ) 5 2).total_pages
        ∧ ((paginate ([10, 20, 30] : List ℕ) 5 2).has_next = true ↔
            (paginate [10, 20, 30] 5 2).page <
              (paginate [10, 20, 30] 5 2).total_pages)
        ∧ ((paginate ([10, 20, 30] : List ℕ) 5 2).has_prev = true ↔
            1 < (paginate [10, 20, 30] 5 2).page)
        ∧ (([10, 20, 30] : List ℕ).length = 0 →
            (paginate [10, 20, 30] 5 2).results = []
            ∧ (paginate [10, 20, 30] 5 2).has_next = false
            ∧ (paginate [10, 20, 30] 5 2).has_prev = false)) :=
  ⟨by norm_num, C7_pagination [10, 20, 30] 5 2 (by norm_num)⟩

lemma flatten_chunks {α : Type} (limit : ℕ) :
    ∀ (n : ℕ) (l : List α),
      ((List.range n).map (fun i => (l.drop (i * limit)).take limit)).flatten =
        l.take (n * limit) := by
  intro n
  induction n with
  | zero => intro l; simp
  | succ n ih =>
      intro l
      rw [List.range_succ_eq_map, List.map_cons, List.flatten_cons, List.map_map]
      have hmap :
          List.map ((fun i => (l.drop (i * limit)).take limit) ∘ Nat.succ)
              (List.range n) =
            List.map (fun i => ((l.drop limit).drop (i * limit)).take limit)
              (List.range n) := by
        apply List.map_congr_left
        intro i _
        simp only [Function.comp]
        rw [List.drop_drop]
        congr 1
        rw [Nat.succ_mul]
        congr 1
        exact Nat.add_comm _ _
      rw [hmap, ih (l.drop limit)]
      rw [show (n + 1) * limit = limit + n * limit by ring, List.take_add]
      simp

lemma le_totalPagesNat_mul (t lim : ℕ) (h : 1 ≤ lim) :
    t ≤ totalPagesNat t lim * lim := by
  unfold totalPagesNat
  rcases Nat.eq_zero_or_pos t with ht | ht
  · subst ht; simp
  · rw [if_pos ht, mul_comm]
    have hdm := Nat.div_add_mod (t + lim - 1) lim
    have hmod : (t + lim - 1) % lim < lim := Nat.mod_lt _ (by omega)
    generalize lim * ((t + lim - 1) / lim) = X at hdm
    omega

/-- C8: for every ordered list and `limit ≥ 1`, each slice
`ordered[(page-1)*limit : page*limit]` has length at most `limit`, the
slices for pages `1..total_pages` concatenate back to the full list (no
gaps, no overlaps), and the `search` route's page slice is exactly the
slice of its clamped page. -/
theorem C8_page_partition {α : Type} (l : List α) (limit : ℕ)
    (hlim : 1 ≤ limit) :
    (∀ page : ℕ, (pageSlice l page limit).length ≤ limit)
    ∧ ((List.range (totalPagesNat l.length limit)).map
        (fun i => pageSlice l (i + 1) limit)).flatten = l
    ∧ (∀ pageReq : ℤ,
        (paginate l pageReq (limit : ℤ)).results =
          pageSlice l ((paginate l pageReq (limit : ℤ)).page).toNat limit) := by
  refine ⟨?_, ?_, ?_⟩
  · intro page
    simp only [pageSlice, List.length_take]
    exact min_le_left _ _
  · have hslice : ∀ i : ℕ, pageSlice l (i + 1) limit =
        (l.drop (i * limit)).take limit := by
      intro i
      simp [pageSlice]
    rw [List.map_congr_left (fun i _ => hslice i), flatten_chunks limit _ l]
    exact List.take_of_length_le (le_totalPagesNat_mul l.length limit hlim)
  · intro pageReq
    simp only [paginate, pageSlice]
    set tp : ℤ := if (l.length : ℤ) > 0 then
        ((l.length : ℤ) + (limit : ℤ) - 1) / (limit : ℤ) else 1 with htp
    have htp1 : 1 ≤ tp := one_le_total_pages l (limit : ℤ) (by exact_mod_cast hlim)
    set pg : ℤ := max 1 (min pageReq tp) with hpg
    have hpg1 : 1 ≤ pg := le_max_left _ _
    have hend : ((pg - 1) * (limit : ℤ) + (limit : ℤ) - (pg - 1) * (limit : ℤ))
        = ((limit : ℕ) : ℤ) := by ring
    rw [hend, Int.toNat_natCast]
    have hstart : ((pg - 1) * (limit : ℤ)).toNat = (pg.toNat - 1) * limit := by
      have h0 : (0 : ℤ) ≤ pg - 1 := by omega
      have h3 : (pg - 1).toNat = pg.toNat - 1 := by omega
      rw [show ((pg - 1) * (limit : ℤ)) = (((pg - 1).toNat * limit : ℕ) : ℤ) by
        push_cast [Int.toNat_of_nonneg h0]; ring, Int.toNat_natCast, h3]
    rw [hstart]

/-- C8 witness: the theorem applied at a concrete list and limit. -/
theorem C8_page_partition_witness :
    1 ≤ 2
    ∧ ((∀ page : ℕ, (pageSlice ([10, 20, 30] : List ℕ) page 2).length ≤ 2)
        ∧ ((List.range (totalPagesNat ([10, 20, 30] : List ℕ).length 2)).map
            (fun i => pageSlice ([10, 20, 30] : List ℕ) (i + 1) 2)).flatten =
              [10, 20, 30]
        ∧ (∀ pageReq : ℤ,
            (paginate ([10, 20, 30] : List ℕ) pageReq ((2 : ℕ) : ℤ)).results =
              pageSlice ([10, 20, 30] : List ℕ)
                ((paginate ([10, 20, 30] : List ℕ) pageReq ((2 : ℕ) : ℤ)).page).toNat
                2)) :=
  ⟨by norm_num, C8_page_partition [10, 20, 30] 2 (by norm_num)⟩

lemma round4_nonneg {q : ℚ} (h : 0 ≤ q) : 0 ≤ round4 q := by
  unfold round4
  apply div_nonneg _ (by norm_num)
  rw [round_eq]
  have h1 : (0 : ℤ) ≤ ⌊q * 10000 + 1 / 2⌋ := Int.floor_nonneg.2 (by nlinarith)
  exact_mod_cast h1

lemma round4_le_one {q : ℚ} (h : q ≤ 1) : round4 q ≤ 1 := by
  unfold round4
  rw [div_le_one (by norm_num : (0:ℚ) < 10000), round_eq]
  have h2 : ⌊q * 10000 + 1 / 2⌋ ≤ ⌊(10000 : ℚ) + 1 / 2⌋ :=
    Int.floor_le_floor (by nlinarith)
  have h3 : ⌊(10000 : ℚ) + 1 / 2⌋ = 10000 := by norm_num
  have h4 : ⌊q * 10000 + 1 / 2⌋ ≤ (10000 : ℤ) := le_trans h2 (le_of_eq h3)
  exact_mod_cast h4

/-- C4 counterexample: the claim "for raw similarity in [0,1], any star
count, any `updated_at` string and any `now` the combined score lies in
[0,1]" fails as stated: an `updated_at` that parses to two days after
`now` gives `age_days = -2`, a recency score above 1, and a combined
score of 1.0016 at raw similarity 1. -/
theorem C4_bounded_counterexample :
    1 < calculate_combined_score parseFuture 1 0 "2038-01-01T00:00:00Z" 0 := by
  have hdiv : (((0 : ℤ) - 172800) / 86400) = -2 := by decide
  simp only [calculate_combined_score, recencyScore, parseFuture, MAX_STARS,
    MAX_AGE_DAYS, round4, hdiv]
  have hmax : max (0 : ℚ) (1 - ((-2 : ℤ) : ℚ) / ((365 : ℤ) : ℚ)) = 367 / 365 := by
    rw [max_eq_right] <;> norm_num
  rw [hmax]
  norm_num [round_eq]

/-- C4 (amended): the Scorer is pure — its embedding is a function, so
two calls on identical arguments agree — and the combined score lies in
[0,1] for every input whose raw similarity is in [0,1] and whose
`updated_at` either fails to parse or parses to an instant not later than
`now` (the bound genuinely fails for future timestamps, see the
counterexample; the star count may be anything since its weight is 0). -/
theorem C4_determinism_and_bounds (parseTS : String → Option ℤ) (sem : ℚ)
    (stars : ℤ) (u : String) (now : ℤ) :
    calculate_combined_score parseTS sem stars u now =
      calculate_combined_score parseTS sem stars u now
    ∧ (0 ≤ sem → sem ≤ 1 → (∀ t, parseTS u = some t → t ≤ now) →
        0 ≤ calculate_combined_score parseTS sem stars u now
        ∧ calculate_combined_score parseTS sem stars u now ≤ 1) := by
  refine ⟨rfl, ?_⟩
  intro h0 h1 hpast
  have hrec0 : 0 ≤ recencyScore parseTS u now := by
    unfold recencyScore
    cases hp : parseTS u with
    | none => norm_num
    | some t => exact le_max_left _ _
  have hrec1 : recencyScore parseTS u now ≤ 1 := by
    unfold recencyScore
    cases hp : parseTS u with
    | none => norm_num
    | some t =>
        have ht := hpast t hp
        have hage : 0 ≤ (now - t) / 86400 := Int.ediv_nonneg (by omega) (by norm_num)
        apply max_le (by norm_num)
        have hdiv : (0 : ℚ) ≤ (((now - t) / 86400 : ℤ) : ℚ) / ((MAX_AGE_DAYS : ℤ) : ℚ) := by
          apply div_nonneg _ (by norm_num [MAX_AGE_DAYS])
          exact_mod_cast hage
        linarith
  obtain ⟨q, hq, hq0, hq1⟩ : ∃ q,
      calculate_combined_score parseTS sem stars u now = round4 q
      ∧ 0 ≤ q ∧ q ≤ 1 := by
    refine ⟨_, rfl, ?_, ?_⟩
    · have hmin0 : (0.00 : ℚ) * min ((stars : ℚ) / ((MAX_STARS : ℤ) : ℚ)) 1.0 = 0 := by
        norm_num
      nlinarith [hrec0, h0]
    · have hmin0 : (0.00 : ℚ) * min ((stars : ℚ) / ((MAX_STARS : ℤ) : ℚ)) 1.0 = 0 := by
        norm_num
      nlinarith [hrec1, h1]
  rw [hq]
  exact ⟨round4_nonneg hq0, round4_le_one hq1⟩

/-- C4 witness: the amended theorem applied at a concrete input (an
unparseable timestamp, raw similarity 0.8). -/
theorem C4_determinism_and_bounds_witness :
    calculate_combined_score parseNone 0.8 100 "not-a-date" 0 =
      calculate_combined_score parseNone 0.8 100 "not-a-date" 0
    ∧ 0 ≤ calculate_combined_score parseNone 0.8 100 "not-a-date" 0
    ∧ calculate_combined_score parseNone 0.8 100 "not-a-date" 0 ≤ 1 :=
  ⟨(C4_determinism_and_bounds parseNone 0.8 100 "not-a-date" 0).1,
   (C4_determinism_and_bounds parseNone 0.8 100 "not-a-date" 0).2
     (by norm_num) (by norm_num)
     (fun t ht => by simp [parseNone] at ht)⟩

lemma cxScore1_eq : cxRes1.score = 2200 / 10000 := by
  show calculate_combined_score parseNone cxMatch1.score
    cxMatch1.metadata.repo_stars cxMatch1.metadata.updated_at 0 = 2200 / 10000
  simp only [cxMatch1, mkMeta, calculate_combined_score, recencyScore,
    parseNone, MAX_STARS, MAX_AGE_DAYS, round4]
  norm_num [round_eq]

lemma cxScore2_eq : cxRes2.score = 7800 / 10000 := by
  show calculate_combined_score parseNone cxMatch2.score
    cxMatch2.metadata.repo_stars cxMatch2.metadata.updated_at 0 = 7800 / 10000
  simp only [cxMatch2, mkMeta, calculate_combined_score, recencyScore,
    parseNone, MAX_STARS, MAX_AGE_DAYS, round4]
  norm_num [round_eq]

/-- C1 counterexample: in the ranked search path with requested mode
`"newest"`, the output is NOT ordered by `created_at` descending (the
code's `else` branch sorts these two candidates by combined score, which
reverses their `created_at` order); this falsifies the claim that the
mode table applies to the ranked search path as well. -/
theorem C1_sort_modes_counterexample :
    ¬ List.Pairwise (fun a b : SearchResult => b.created_at ≤ a.created_at)
        (process_results parseNone 0 [cxMatch1, cxMatch2] cxParsed) := by
  intro hpair
  set out := process_results parseNone 0 [cxMatch1, cxMatch2] cxParsed with hout
  have hmerge : out = List.mergeSort [cxRes1, cxRes2]
      (fun a b => decide (b.score ≤ a.score)) := by
    rw [hout]
    unfold process_results
    rw [if_neg (by decide), if_neg (by decide)]
    rfl
  have hperm : out.Perm [cxRes1, cxRes2] := by
    rw [hmerge]
    exact List.mergeSort_perm _ _
  have hsorted : List.Pairwise (fun a b : SearchResult => b.score ≤ a.score) out := by
    rw [hmerge]
    exact pairwise_desc_mergeSort (fun r : SearchResult => r.score) _
  obtain ⟨x, y, hxy⟩ : ∃ x y, out = [x, y] := by
    have hlen : out.length = 2 := by rw [hperm.length_eq]; rfl
    exact List.length_eq_two.1 hlen
  have hx : x = cxRes1 ∨ x = cxRes2 := by
    have : x ∈ [cxRes1, cxRes2] := hperm.subset (by rw [hxy]; simp)
    simpa using this
  have hscore_lt : cxRes1.score < cxRes2.score := by
    rw [cxScore1_eq, cxScore2_eq]
    norm_num
  rcases hx with rfl | rfl
  · -- head is the low-score result: contradicts score-descending order
    have hy : y = cxRes2 := by
      have h2 : [y].Perm [cxRes2] := by
        have h5 := hperm
        rw [hxy] at h5
        exact h5.cons_inv
      simpa using h2.mem_iff.1 (by simp)
    subst hy
    rw [hxy] at hsorted
    have hle := (List.pairwise_cons.1 hsorted).1 cxRes2 (by simp)
    exact absurd hle (not_le.2 hscore_lt)
  · -- head is the earlier-created result: contradicts created_at order
    have hne : cxRes1 ≠ cxRes2 := by
      intro he
      rw [he] at hscore_lt
      exact lt_irrefl _ hscore_lt
    have hymem : y = cxRes1 ∨ y = cxRes2 := by
      have h3 : y ∈ [cxRes1, cxRes2] := hperm.subset (by rw [hxy]; simp)
      simpa using h3
    rcases hymem with rfl | rfl
    · rw [hxy] at hpair
      have hle := (List.pairwise_cons.1 hpair).1 cxRes1 (by simp)
      have hc1 : cxRes1.created_at = "2024-02-01T00:00:00Z" := rfl
      have hc2 : cxRes2.created_at = "2024-01-01T00:00:00Z" := rfl
      rw [hc1, hc2] at hle
      have hnle : ¬ (("2024-02-01T00:00:00Z" : String) ≤ "2024-01-01T00:00:00Z") := by
        simp [String.le_iff_toList_le]
        decide
      exact hnle hle
    · have h4 : cxRes1 ∈ out := hperm.mem_iff.2 (by simp)
      rw [hxy] at h4
      simp at h4
      exact hne h4

/-- C1 (amended): the Ranker/Sorter orders results by the key of the
requested mode, descending, with the mode table applying to the homepage
feed (`"newest"` by `created_at`, `"recently_discussed"` by `updated_at`,
`"stars"` by `repo_stars`, anything else by combined score); the ranked
search path dispatches on `"stars"` (by `repo_stars`) and on the literal
`"recency"` (by `updated_at` — unreachable for the declared `sort_by`
values), sorting every other mode, including `"newest"` and
`"recently_discussed"`, by the combined score; the ranked output is a
permutation of the scored, post-filtered candidate set. -/
theorem C1_sort_modes_amended (parseTS : String → Option ℤ) (now : ℤ)
    (raw : List Match) (parsed : ParsedQuery) (sort_by : String)
    (labels : Option (List String)) (limit : ℤ) :
    List.Pairwise (rankedSortKeyGE parsed.sort_by)
      (process_results parseTS now raw parsed)
    ∧ (process_results parseTS now raw parsed).Perm
        (raw.filterMap (processMatch parseTS now parsed))
    ∧ List.Pairwise (feedSortKeyGE sort_by)
        (get_recent_issues_results parseTS now raw sort_by labels limit) := by
  refine ⟨?_, ?_, ?_⟩
  · unfold process_results
    by_cases h1 : parsed.sort_by = "stars"
    · rw [if_pos h1]
      refine (pairwise_desc_mergeSort (fun r : SearchResult => r.repo_stars) _).imp ?_
      intro a b hab
      simpa [rankedSortKeyGE, h1] using hab
    · rw [if_neg h1]
      by_cases h2 : parsed.sort_by = "recency"
      · rw [if_pos h2]
        refine (pairwise_desc_mergeSort (fun r : SearchResult => r.updated_at) _).imp ?_
        intro a b hab
        simpa [rankedSortKeyGE, h1, h2] using hab
      · rw [if_neg h2]
        refine (pairwise_desc_mergeSort (fun r : SearchResult => r.score) _).imp ?_
        intro a b hab
        simpa [rankedSortKeyGE, h1, h2] using hab
  · unfold process_results
    split_ifs <;> exact List.mergeSort_perm _ _
  · unfold get_recent_issues_results
    apply List.Pairwise.sublist (List.take_sublist _ _)
    by_cases h1 : sort_by = "newest"
    · rw [if_pos h1]
      refine (pairwise_desc_mergeSort (fun r : SearchResult => r.created_at) _).imp ?_
      intro a b hab
      simpa [feedSortKeyGE, h1] using hab
    · rw [if_neg h1]
      by_cases h2 : sort_by = "recently_discussed"
      · rw [if_pos h2]
        refine (pairwise_desc_mergeSort (fun r : SearchResult => r.updated_at) _).imp ?_
        intro a b hab
        simpa [feedSortKeyGE, h1, h2] using hab
      · rw [if_neg h2]
        by_cases h3 : sort_by = "stars"
        · rw [if_pos h3]
          refine (pairwise_desc_mergeSort (fun r : SearchResult => r.repo_stars) _).imp ?_
          intro a b hab
          simpa [feedSortKeyGE, h1, h2, h3] using hab
        · rw [if_neg h3]
          refine (pairwise_desc_mergeSort (fun r : SearchResult => r.score) _).imp ?_
          intro a b hab
          simpa [feedSortKeyGE, h1, h2, h3] using hab

end IssuesFinder
